import Mathlib

/-!
Shallow embedding of the lifecycle-analysis normalization and analytics
engine: the field coercers and row/dataset normalizers of
`backend/src/utils/columnMapper.js`, and the built-in strict support
coercer, analytics aggregation and paginated results handler of
`backend/src/controllers/uploadController.js`.

JavaScript numbers are modelled as rationals (every concrete value the
claims exercise is exactly representable in binary64, so the model is
faithful on them); absent values as `Option`; loosely-typed cell values
as the `JsVal` variant type. The external `new Date(...)` parser is
modelled by a strict ISO `YYYY-MM-DD` calendar parser (`parseDateISO`),
and `parseFloat` by `jsParseFloat` below.
-/

/-- A loosely-typed JavaScript scalar cell value: a string, a finite
number (modelled as a rational), or `null`. -/
inductive JsVal where
  | str : String → JsVal
  | num : ℚ → JsVal
  | null : JsVal
deriving DecidableEq, Repr

/-- JavaScript falsiness of a possibly-absent cell value (`!value`):
`undefined` (absent), `null`, the empty string and the number `0` are
falsy. -/
def jsFalsy (value : Option JsVal) : Bool :=
  match value with
  | none => true
  | some .null => true
  | some (.str s) => s == ""
  | some (.num q) => q == 0

/-- JavaScript `Number.prototype.toString`, modelled exactly on integral
values (the only numeric values the embedded coercers' proofs exercise);
non-integral rationals are rendered as `num/den`, a stand-in for JS
decimal formatting that no theorem below depends on. -/
def jsNumToString (q : ℚ) : String :=
  if q.den = 1 then
    if q.num < 0 then "-" ++ toString q.num.natAbs else toString q.num.natAbs
  else
    (if q.num < 0 then "-" else "") ++ toString q.num.natAbs ++ "/" ++ toString q.den

/-- JavaScript `value.toString()` on a scalar cell value. -/
def jsToString (v : JsVal) : String :=
  match v with
  | .str s => s
  | .num q => jsNumToString q
  | .null => "null"

/-- `s.toLowerCase()`, character by character (kernel-reducible model of
`String.toLower`). -/
def jsToLower (s : String) : String :=
  String.mk (s.data.map Char.toLower)

/-- `s.toUpperCase()`, character by character. -/
def jsToUpper (s : String) : String :=
  String.mk (s.data.map Char.toUpper)

/-- `s.trim()`: strip leading and trailing whitespace (kernel-reducible
model of `String.trim`). -/
def jsTrim (s : String) : String :=
  String.mk (((s.data.dropWhile Char.isWhitespace).reverse.dropWhile
    Char.isWhitespace).reverse)

/-- Helper for `jsIncludes`: does `sub` occur as a contiguous run inside
the character list? -/
def jsIncludesAux (sub : List Char) : List Char → Bool
  | [] => sub.isEmpty
  | c :: cs => sub.isPrefixOf (c :: cs) || jsIncludesAux sub cs

/-- JavaScript `s.includes(sub)`: substring containment. -/
def jsIncludes (s sub : String) : Bool :=
  jsIncludesAux sub.data s.data

/-- The shared sentinel test of the three coercers of `columnMapper.js`:
`!value || value === '-' || value === 'N/A' || value === 'n/a'`. -/
def sentinelVal (value : Option JsVal) : Bool :=
  jsFalsy value || value == some (.str "-") || value == some (.str "N/A")
    || value == some (.str "n/a")

/-- `normalizeSupport` from `columnMapper.js` (the lenient scheme):
sentinel inputs map to `-`; otherwise the lowercased trimmed value is
substring-matched against an active vocabulary (→ `Active`), then an
expired vocabulary (→ `Expired`); anything else passes through
unchanged. -/
def normalizeSupport (value : Option JsVal) : JsVal :=
  if sentinelVal value then
    .str "-"
  else
    match value with
    | none => .str "-"
    | some v =>
      let lowerValue := jsTrim (jsToLower (jsToString v))
      if jsIncludes lowerValue "covered" || jsIncludes lowerValue "active" ||
          jsIncludes lowerValue "yes" || jsIncludes lowerValue "valid" ||
          jsIncludes lowerValue "current" || jsIncludes lowerValue "maintenance" ||
          lowerValue == "y" || lowerValue == "1" || lowerValue == "true" then
        .str "Active"
      else if jsIncludes lowerValue "not covered" || jsIncludes lowerValue "no coverage" ||
          jsIncludes lowerValue "expired" || jsIncludes lowerValue "none" ||
          jsIncludes lowerValue "no" || lowerValue == "n" || lowerValue == "0" ||
          lowerValue == "false" then
        .str "Expired"
      else v

/-- Numeric value of a decimal digit character. -/
def dval (c : Char) : ℕ := c.toNat - 48

/-- Consume leading decimal digits, returning the accumulated value, the
number of digits consumed, and the rest of the input. -/
def takeDigits (acc cnt : ℕ) : List Char → ℕ × ℕ × List Char
  | [] => (acc, cnt, [])
  | c :: cs =>
    if c.isDigit then takeDigits (acc * 10 + dval c) (cnt + 1) cs
    else (acc, cnt, c :: cs)

/-- Days in a month of the (proleptic) Gregorian calendar. -/
def daysInMonth (y m : ℕ) : ℕ :=
  if m = 2 then
    if y % 4 = 0 && (y % 100 != 0 || y % 400 = 0) then 29 else 28
  else if m = 4 || m = 6 || m = 9 || m = 11 then 30
  else 31

/-- Model of the external `new Date(value)` parser, restricted to strict
ISO `YYYY-MM-DD` calendar-date strings (the formats the spec's scenarios
use). A valid date is encoded as the natural number `y*10000 + m*100 + d`,
whose ordering agrees with the chronological ordering of the parsed
instants. Invalid calendar dates (as in JS ISO parsing) yield `none`. -/
def parseDateISO (s : String) : Option ℕ :=
  match s.data with
  | [y1, y2, y3, y4, '-', m1, m2, '-', d1, d2] =>
    if y1.isDigit && y2.isDigit && y3.isDigit && y4.isDigit &&
        m1.isDigit && m2.isDigit && d1.isDigit && d2.isDigit then
      let y := ((dval y1 * 10 + dval y2) * 10 + dval y3) * 10 + dval y4
      let m := dval m1 * 10 + dval m2
      let d := dval d1 * 10 + dval d2
      if 1 ≤ m && m ≤ 12 && 1 ≤ d && d ≤ daysInMonth y m then
        some (y * 10000 + m * 100 + d)
      else none
    else none
  | _ => none

/-- Zero-pad a number to two digits. -/
def pad2 (n : ℕ) : String :=
  if n < 10 then "0" ++ toString n else toString n

/-- Zero-pad a number to four digits. -/
def pad4 (n : ℕ) : String :=
  if n < 10 then "000" ++ toString n
  else if n < 100 then "00" ++ toString n
  else if n < 1000 then "0" ++ toString n
  else toString n

/-- Render an encoded calendar date as `YYYY-MM-DD`
(`date.toISOString().split('T')[0]`). -/
def isoFormat (n : ℕ) : String :=
  pad4 (n / 10000) ++ "-" ++ pad2 (n / 100 % 100) ++ "-" ++ pad2 (n % 100)

/-- `formatDate` from `columnMapper.js`: sentinel inputs map to `-`;
otherwise the value is parsed as a date — on success the `YYYY-MM-DD`
form is emitted, on failure the original value is returned unchanged. -/
def formatDate (value : Option JsVal) : JsVal :=
  if sentinelVal value then
    .str "-"
  else
    match value with
    | none => .str "-"
    | some v =>
      match parseDateISO (jsToString v) with
      | none => v
      | some d => .str (isoFormat d)

/-- Parse an optional exponent part (`e`/`E`, optional sign, digits) of a
JS float literal; returns the exponent and remaining input, or `(0, cs)`
when no well-formed exponent follows (longest-valid-prefix rule). -/
def parseExp (cs : List Char) : ℤ :=
  match cs with
  | 'e' :: rest | 'E' :: rest =>
    match rest with
    | '-' :: ds =>
      let (e, n, _) := takeDigits 0 0 ds
      if n = 0 then 0 else -(e : ℤ)
    | '+' :: ds =>
      let (e, n, _) := takeDigits 0 0 ds
      if n = 0 then 0 else (e : ℤ)
    | ds =>
      let (e, n, _) := takeDigits 0 0 ds
      if n = 0 then 0 else (e : ℤ)
  | _ => 0

/-- Digit-level part of the `parseFloat` model: returns the sign, the
mantissa digits read as an integer, the number of fractional digits, and
the exponent — all in kernel-reducible base types — or `none` when no
digit at all is found (JS `NaN`). -/
def jsParseFloatRaw (s : String) : Option (Bool × ℕ × ℕ × ℤ) :=
  let (neg, cs) : Bool × List Char :=
    match s.data with
    | '-' :: rest => (true, rest)
    | '+' :: rest => (false, rest)
    | rest => (false, rest)
  let (ip, ic, r1) := takeDigits 0 0 cs
  let (mant, digits, fracDigits, rest) : ℕ × ℕ × ℕ × List Char :=
    match r1 with
    | '.' :: r2 =>
      let (fp, fc, r3) := takeDigits ip 0 r2
      (fp, ic + fc, fc, r3)
    | _ => (ip, ic, 0, r1)
  if digits = 0 then none
  else some (neg, mant, fracDigits, parseExp rest)

/-- Assemble the rational value of a parsed float literal. -/
def assembleFloat : Bool × ℕ × ℕ × ℤ → ℚ
  | (neg, mant, fracDigits, e) =>
    let m : ℚ := (mant : ℚ) / (10 : ℚ) ^ fracDigits
    let scaled := if 0 ≤ e then m * (10 : ℚ) ^ e.toNat else m / (10 : ℚ) ^ (-e).toNat
    if neg then -scaled else scaled

/-- Model of JavaScript `parseFloat`: optional sign, decimal mantissa
(digits, optionally with a fractional part), optional exponent; the
longest valid prefix is parsed and trailing garbage ignored; no digits at
all yields `none` (JS `NaN`). (`Infinity` literals are not modelled; no
claim depends on them.) -/
def jsParseFloat (s : String) : Option ℚ :=
  (jsParseFloatRaw s).map assembleFloat

/-- Remove every `$` and `,` character (`value.replace(/[$,]/g, '')`). -/
def stripDollarComma (s : String) : String :=
  String.mk (s.data.filter (fun c => c ≠ '$' && c ≠ ','))

/-- `normalizeNumber` from `columnMapper.js`: sentinel inputs map to `0`;
otherwise currency symbols and commas are stripped, the result trimmed
and parsed as a float; parse failure yields `0`. -/
def normalizeNumber (value : Option JsVal) : ℚ :=
  if sentinelVal value then
    0
  else
    match value with
    | none => 0
    | some v =>
      let cleanValue := jsTrim (stripDollarComma (jsToString v))
      match jsParseFloat cleanValue with
      | none => 0
      | some q => q

/-- The built-in `normalizeSupport` of `uploadController.js` (the strict
scheme): falsy and placeholder inputs map to `Expired`; after trimming,
only the uppercased values `ACTIVE` and `COVERED` map to `Active`;
everything else maps to `Expired`. -/
def strictNormalizeSupport (value : Option JsVal) : String :=
  if jsFalsy value then "Expired"
  else
    match value with
    | none => "Expired"
    | some v =>
      let strValue := jsTrim (jsToString v)
      let upperValue := jsToUpper strValue
      if strValue == "-" || strValue == "." || strValue == "?" || strValue == "0"
          || strValue == "" then
        "Expired"
      else if upperValue == "ACTIVE" || upperValue == "COVERED" then
        "Active"
      else
        "Expired"

/-- The `COLUMN_MAPPINGS` synonym table of `columnMapper.js`, in source
declaration order. -/
def COLUMN_MAPPINGS : List (String × List String) := [
  ("mfg", ["mfg", "manufacturer", "vendor", "supplier", "make", "brand"]),
  ("category", ["category", "business entity", "business_entity", "businessentity",
    "bus_entity", "product category", "product_category"]),
  ("asset_type", ["asset type", "asset_type", "assettype", "type of asset",
    "equipment type", "equipment_type"]),
  ("type", ["type", "product type", "product_type", "model type", "model_type"]),
  ("product_id", ["product id", "product_id", "productid", "pid", "product number",
    "product_number", "part number", "part_number", "sku"]),
  ("description", ["description", "product description", "product_description",
    "productdescription", "desc", "details", "product details"]),
  ("ship_date", ["ship date", "ship_date", "shipdate", "ship dt", "ship_dt",
    "shipped date", "shipped_date", "date shipped", "date_shipped"]),
  ("qty", ["qty", "quantity", "count", "amount", "units", "total qty", "total_qty"]),
  ("total_value", ["total value", "total_value", "totalvalue", "value", "cost",
    "price", "total cost", "total_cost", "total price", "total_price",
    "extended price", "extended_price"]),
  ("support_coverage", ["support coverage", "support_coverage", "supportcoverage",
    "coverage", "maintenance", "support status", "support_status",
    "maintenance status", "maintenance_status", "covered"]),
  ("end_of_sale", ["end of sale", "end_of_sale", "endofsale", "end of product sale",
    "end_of_product_sale", "eos", "sale end date", "sale_end_date",
    "discontinued date", "discontinued_date"]),
  ("last_day_support", ["last day support", "last_day_support", "lastdaysupport",
    "last support", "last_support", "last date of support", "last_date_of_support",
    "end of support", "end_of_support", "support end date", "support_end_date",
    "eosl"])]

/-- Helper for the slug fallback: collapse each maximal run of whitespace
into a single `_` (`replace(/\s+/g, '_')`); the flag records whether the
previous character was whitespace. -/
def collapseWsAux : Bool → List Char → List Char
  | _, [] => []
  | prevWs, c :: cs =>
    if c.isWhitespace then
      (if prevWs then [] else ['_']) ++ collapseWsAux true cs
    else c :: collapseWsAux false cs

/-- Slug fallback of the column mapper: collapse whitespace runs to `_`,
then strip every character outside `[a-z0-9_]`
(`lowerKey.replace(/\s+/g, '_').replace(/[^a-z0-9_]/g, '')`). -/
def slugify (lowerKey : String) : String :=
  String.mk ((collapseWsAux false lowerKey.data).filter
    (fun c => (('a' ≤ c && c ≤ 'z') || c.isDigit || c == '_')))

/-- Header resolution step of `normalizeRow`: lowercase and trim the
original key, exact-match it against each synonym list in declaration
order, and fall back to the slugified key. -/
def resolveHeader (originalKey : String) : String :=
  let lowerKey := jsTrim (jsToLower originalKey)
  match COLUMN_MAPPINGS.find? (fun p => p.2.contains lowerKey) with
  | some p => p.1
  | none => slugify lowerKey

/-- JavaScript object-property assignment on an insertion-ordered
association list: overwrite in place when the key exists, else append. -/
def setField (m : List (String × JsVal)) (k : String) (v : JsVal) :
    List (String × JsVal) :=
  match m with
  | [] => [(k, v)]
  | (k0, v0) :: t => if k0 == k then (k0, v) :: t else (k0, v0) :: setField t k v

/-- JavaScript property read (`obj[k]`): `none` models `undefined`. -/
def getField (m : List (String × JsVal)) (k : String) : Option JsVal :=
  match m with
  | [] => none
  | (k0, v0) :: t => if k0 == k then some v0 else getField t k

/-- `normalizeRow` from `columnMapper.js`: resolve every header of the raw
row, then coerce `support_coverage`, the three date fields, `qty` and
`total_value` in place. -/
def normalizeRow (row : List (String × JsVal)) : List (String × JsVal) :=
  let normalized := row.foldl (fun acc kv => setField acc (resolveHeader kv.1) kv.2) []
  let normalized := setField normalized "support_coverage"
    (normalizeSupport (getField normalized "support_coverage"))
  let normalized := setField normalized "ship_date"
    (formatDate (getField normalized "ship_date"))
  let normalized := setField normalized "end_of_sale"
    (formatDate (getField normalized "end_of_sale"))
  let normalized := setField normalized "last_day_support"
    (formatDate (getField normalized "last_day_support"))
  let normalized := setField normalized "qty"
    (.num (normalizeNumber (getField normalized "qty")))
  setField normalized "total_value"
    (.num (normalizeNumber (getField normalized "total_value")))

/-- A raw input row as the dataset normalizer sees it: either a key→value
object, or a non-object value (e.g. `null`) on which the row-processing
step throws (`Object.keys(null)` raises a `TypeError`, which `processData`
catches per row). -/
inductive JsRow where
  | obj : List (String × JsVal) → JsRow
  | nonObj : JsRow
deriving DecidableEq, Repr

/-- `processData` from `columnMapper.js`: map `normalizeRow` over the rows;
a row whose processing throws is emitted unchanged; a normalized record
with a falsy `id` receives `id = index + 1`. -/
def processData (data : List JsRow) : List JsRow :=
  data.enum.map (fun iv =>
    match iv.2 with
    | .obj row =>
      let normalized := normalizeRow row
      if jsFalsy (getField normalized "id") then
        .obj (setField normalized "id" (.num ((iv.1 : ℚ) + 1)))
      else
        .obj normalized
    | .nonObj => iv.2)

/-- The canonical field set of the schema (§3 of the design). -/
def canonicalFields : List String :=
  ["id", "mfg", "category", "asset_type", "type", "product_id", "description",
   "ship_date", "qty", "total_value", "support_coverage", "end_of_sale",
   "last_day_support"]

/-- A canonical record as the analytics aggregation of
`uploadController.js` consumes it: the string-valued canonical fields
(`none` models an absent property), the numeric `qty` and `total_value`,
and `vuln`, the resolved value of the software-vulnerability fallback
chain `item['End of Vulnerability/Security Support'] ||
item.end_of_vulnerability_support || item['End of Security Support']`
(`none` when every link is falsy, i.e. the chain's `|| '-'` default
applies). -/
structure Record where
  mfg : Option String := none
  category : Option String := none
  asset_type : Option String := none
  type_ : Option String := none
  product_id : Option String := none
  description : Option String := none
  ship_date : Option String := none
  qty : ℚ := 0
  total_value : ℚ := 0
  support_coverage : Option String := none
  end_of_sale : Option String := none
  last_day_support : Option String := none
  vuln : Option String := none
deriving DecidableEq, Repr

/-- `parseInt(item.qty) || 0` applied to an already-numeric field:
truncation toward zero (`Int.tdiv` by the denominator), the value of
`parseInt` on the decimal rendering of an ordinary finite number. -/
def qtyInt (item : Record) : ℤ :=
  Int.tdiv item.qty.num (item.qty.den : ℤ)

/-- Group key of the manufacturer breakdown:
`item.mfg && item.mfg !== '-' ? item.mfg : 'Unknown'`. -/
def mfgKey (item : Record) : String :=
  match item.mfg with
  | some s => if s ≠ "" && s ≠ "-" then s else "Unknown"
  | none => "Unknown"

/-- Group key of the category breakdown and of `lifecycleByCategory`:
`item.category || 'Uncategorized'`. -/
def catKey (item : Record) : String :=
  match item.category with
  | some s => if s ≠ "" then s else "Uncategorized"
  | none => "Uncategorized"

/-- Per-group accumulator of the manufacturer/category breakdowns. -/
structure GroupStats where
  count : ℕ := 0
  quantity : ℤ := 0
  activeCount : ℕ := 0
  expiredCount : ℕ := 0
deriving DecidableEq, Repr

/-- One loop iteration of a breakdown: `count++`, `quantity += parseInt
(item.qty) || 0`, and the active/expired sub-counts. -/
def updateStats (s : GroupStats) (item : Record) : GroupStats :=
  { count := s.count + 1
    quantity := s.quantity + qtyInt item
    activeCount :=
      if item.support_coverage = some "Active" then s.activeCount + 1 else s.activeCount
    expiredCount :=
      if item.support_coverage = some "Expired" then s.expiredCount + 1
      else s.expiredCount }

/-- Insert-or-update of the group map (a JS object in insertion order):
initialize the group to zeros on first sight, then apply the update. -/
def bumpGroup (m : List (String × GroupStats)) (g : String) (item : Record) :
    List (String × GroupStats) :=
  match m with
  | [] => [(g, updateStats {} item)]
  | (k, s) :: t => if k == g then (k, updateStats s item) :: t else (k, s) :: bumpGroup t g item

/-- A group-by breakdown (`normalizedData.forEach` building a keyed
object). -/
def breakdownBy (key : Record → String) (records : List Record) :
    List (String × GroupStats) :=
  records.foldl (fun m item => bumpGroup m (key item) item) []

/-- `manufacturerBreakdown` of `uploadController.js`. -/
def manufacturerBreakdown (records : List Record) : List (String × GroupStats) :=
  breakdownBy mfgKey records

/-- `categoryBreakdown` of `uploadController.js`. -/
def categoryBreakdown (records : List Record) : List (String × GroupStats) :=
  breakdownBy catKey records

/-- `totalQuantity`: `reduce((sum, item) => sum + (parseInt(item.qty) || 0), 0)`. -/
def totalQuantity (records : List Record) : ℤ :=
  records.foldl (fun sum item => sum + qtyInt item) 0

/-- The `requiredFields` list of the completeness scoring, in source
order. -/
def requiredFields : List String :=
  ["mfg", "category", "product_id", "description", "support_coverage",
   "end_of_sale", "last_day_support", "asset_type", "ship_date"]

/-- Named-field read used by the completeness scoring (`item[field]`). -/
def recField (item : Record) (field : String) : Option String :=
  if field = "mfg" then item.mfg
  else if field = "category" then item.category
  else if field = "product_id" then item.product_id
  else if field = "description" then item.description
  else if field = "support_coverage" then item.support_coverage
  else if field = "end_of_sale" then item.end_of_sale
  else if field = "last_day_support" then item.last_day_support
  else if field = "asset_type" then item.asset_type
  else if field = "ship_date" then item.ship_date
  else none

/-- The filled-field filter of the completeness scoring:
`item[field] && item[field] !== '-' && item[field] !== '' && item[field]
!== 'N/A'`. -/
def fieldFilled (item : Record) (field : String) : Bool :=
  match recField item field with
  | some s => s ≠ "" && s ≠ "-" && s ≠ "N/A"
  | none => false

/-- `Math.round` (ties toward positive infinity). -/
def jsRound (q : ℚ) : ℤ := ⌊q + 1 / 2⌋

/-- One completeness percentage:
`Math.round((filled / normalizedData.length) * 100)`. The division is
unguarded in the source, so an empty record set divides zero by zero;
the resulting `NaN` is modelled as `none`. -/
def fieldCompletenessValue (records : List Record) (field : String) : Option ℤ :=
  let filled := (records.filter (fun item => fieldFilled item field)).length
  if records.length = 0 then none
  else some (jsRound ((filled : ℚ) / (records.length : ℚ) * 100))

/-- The `fieldCompleteness` object: one percentage per required field. -/
def fieldCompleteness (records : List Record) : List (String × Option ℤ) :=
  requiredFields.map (fun field => (field, fieldCompletenessValue records field))

/-- The per-date-field expiry test of the lifecycle counting: the field is
truthy, not the sentinel `-`, parses as a date, and the date is on or
before `now` (`new Date(field)` valid and `<= currentDate`). -/
def dateExpiredCheck (field : Option String) (now : ℕ) : Bool :=
  match field with
  | none => false
  | some s =>
    if s = "" || s = "-" then false
    else
      match parseDateISO s with
      | some d => d ≤ now
      | none => false

/-- Per-category lifecycle accumulator. -/
structure LifeStats where
  totalQty : ℤ := 0
  endOfSale : ℕ := 0
  endOfSWVuln : ℕ := 0
  lastDaySupport : ℕ := 0
  total : ℕ := 0
deriving DecidableEq, Repr

/-- One iteration of the per-category lifecycle loop. -/
def lifeStep (now : ℕ) (acc : LifeStats) (item : Record) : LifeStats :=
  { acc with
    totalQty := acc.totalQty + qtyInt item
    endOfSale :=
      if dateExpiredCheck item.end_of_sale now then acc.endOfSale + 1 else acc.endOfSale
    endOfSWVuln :=
      if dateExpiredCheck item.vuln now then acc.endOfSWVuln + 1 else acc.endOfSWVuln
    lastDaySupport :=
      if dateExpiredCheck item.last_day_support now then acc.lastDaySupport + 1
      else acc.lastDaySupport }

/-- `lifecycleByCategory` of `uploadController.js`: for every key of the
category breakdown, fold the lifecycle counters over the records of that
category and record the category size. -/
def lifecycleByCategory (records : List Record) (now : ℕ) :
    List (String × LifeStats) :=
  (categoryBreakdown records).map (fun p =>
    let categoryItems := records.filter (fun item => catKey item == p.1)
    let a := categoryItems.foldl (lifeStep now) {}
    (p.1, { a with total := categoryItems.length }))

/-- ECMAScript `Array.prototype.slice` index resolution: negative indices
count from the end; results are clamped into `[0, len]`. -/
def jsSliceIndex (len : ℕ) (i : ℤ) : ℕ :=
  if i < 0 then ((len : ℤ) + i).toNat else min i.toNat len

/-- ECMAScript `Array.prototype.slice(start, fin)`. -/
def jsSlice {α : Type} (l : List α) (start fin : ℤ) : List α :=
  let k := jsSliceIndex l.length start
  let f := jsSliceIndex l.length fin
  (l.drop k).take (f - k)

/-- The records part of the `getResults` handler:
`limit = parseInt(req.query.limit) || job.data.length`,
`offset = parseInt(req.query.offset) || 0`,
`job.data.slice(offset, offset + limit)`. `none` models an absent or
unparsable (`NaN`) query parameter. -/
def getResultsRecords {α : Type} (records : List α) (limitQ offsetQ : Option ℤ) :
    List α :=
  let limit : ℤ := match limitQ with
    | none => (records.length : ℤ)
    | some l => if l = 0 then (records.length : ℤ) else l
  let offset : ℤ := match offsetQ with
    | none => 0
    | some o => o
  jsSlice records offset (offset + limit)

/-- Modelled from the spec: the pagination behavior the spec describes —
offset and limit each clamped to `[0, len(records)]`, then the
corresponding slice taken. Stated only to compare against
`getResultsRecords`. -/
def specClampedRecords {α : Type} (records : List α) (limitQ offsetQ : Option ℤ) :
    List α :=
  let len : ℤ := (records.length : ℤ)
  let limit : ℤ := match limitQ with
    | none => len
    | some l => max 0 (min l len)
  let offset : ℤ := match offsetQ with
    | none => 0
    | some o => max 0 (min o len)
  (records.drop offset.toNat).take limit.toNat

/-! ### Helper lemmas -/

lemma getField_setField_self (m : List (String × JsVal)) (k : String) (v : JsVal) :
    getField (setField m k v) k = some v := by
  induction m with
  | nil => simp [setField, getField]
  | cons hd t ih =>
    obtain ⟨a, b⟩ := hd
    by_cases hk : a = k
    · subst hk
      simp [setField, getField]
    · simp [setField, getField, hk, ih]

lemma getField_setField_ne (m : List (String × JsVal)) (k k0 : String) (v : JsVal)
    (h : k0 ≠ k) : getField (setField m k v) k0 = getField m k0 := by
  induction m with
  | nil => simp [setField, getField, Ne.symm h]
  | cons hd t ih =>
    obtain ⟨a, b⟩ := hd
    by_cases hk : a = k
    · subst hk
      simp [setField, getField, Ne.symm h]
    · simp [setField, getField, hk, ih]

/-! ### C1 — lenient support scheme on expired-vocabulary inputs -/

/-- C1. The lenient coercer checks the active vocabulary first, and
`'not covered'` contains the active word `'covered'`, so the input
`'Not Covered'` — which substring-matches the expired vocabulary, as the
second and third conjuncts record — is mapped to `Active`, not to
`Expired` as the specification states. The source's own expired-branch
test `lowerValue.includes('not covered')` is unreachable. -/
theorem normalizeSupport_notCovered_returns_active :
    jsTrim (jsToLower "Not Covered") = "not covered"
    ∧ jsIncludes "not covered" "not covered" = true
    ∧ jsIncludes "not covered" "covered" = true
    ∧ normalizeSupport (some (.str "Not Covered")) = .str "Active"
    ∧ normalizeSupport (some (.str "Not Covered")) ≠ .str "Expired" := by
  refine ⟨by decide, by decide, by decide, by decide, by decide⟩

/-! ### C3 — which canonical fields the Row Normalizer populates -/

/-- C3, counterexample. A raw row with no manufacturer-like header
produces a normalized record in which the canonical field `mfg` is
absent (`undefined`), so not every canonical field of the schema is
populated with a value or sentinel. -/
theorem normalizeRow_unmatched_canonical_field_absent :
    "mfg" ∈ canonicalFields
    ∧ getField (normalizeRow [("Serial#", .str "ABC123")]) "mfg" = none := by
  refine ⟨by decide, by decide⟩

/-- C3, amended. For every raw row, `normalizeRow` populates the six
coerced canonical fields — `support_coverage`, `ship_date`,
`end_of_sale`, `last_day_support`, `qty`, `total_value` — with a value
or sentinel; the remaining canonical fields (`id`, `mfg`, `category`,
`asset_type`, `type`, `product_id`, `description`) are present only
when a matching header occurs in the raw row. -/
theorem normalizeRow_coerced_fields_populated (row : List (String × JsVal)) :
    (getField (normalizeRow row) "support_coverage").isSome = true
    ∧ (getField (normalizeRow row) "ship_date").isSome = true
    ∧ (getField (normalizeRow row) "end_of_sale").isSome = true
    ∧ (getField (normalizeRow row) "last_day_support").isSome = true
    ∧ (getField (normalizeRow row) "qty").isSome = true
    ∧ (getField (normalizeRow row) "total_value").isSome = true := by
  unfold normalizeRow
  refine ⟨?_, ?_, ?_, ?_, ?_, ?_⟩ <;>
    simp [getField_setField_self, getField_setField_ne]

/-! ### C4 — numeric coercion of qty -/

/-- C4, counterexample. The numeric coercer passes negative numbers
through: `normalizeNumber('-5') = -5 < 0`, so the coercion applied to
`qty` is not non-negative for every input. -/
theorem normalizeNumber_negative_passthrough :
    normalizeNumber (some (.str "-5")) = -5
    ∧ normalizeNumber (some (.str "-5")) < 0 := by
  have h : normalizeNumber (some (.str "-5")) = assembleFloat (true, 5, 0, 0) := rfl
  constructor
  · rw [h]; norm_num [assembleFloat]
  · rw [h]; norm_num [assembleFloat]

/-- C4, amended. The numeric coercion applied to `qty` yields a number
(negative inputs pass through negative): sentinel or absent inputs yield
`0`; `$` and `,` are stripped and the result trimmed before parsing, so
`normalizeNumber('$1,234.50') = 1234.5`; unparsable inputs yield `0`. -/
theorem normalizeNumber_spec :
    normalizeNumber (some (.str "$1,234.50")) = 2469 / 2
    ∧ normalizeNumber (some (.str "-")) = 0
    ∧ (∀ value : Option JsVal, sentinelVal value = true → normalizeNumber value = 0)
    ∧ (∀ s : String, jsParseFloat (jsTrim (stripDollarComma s)) = none →
        normalizeNumber (some (.str s)) = 0)
    ∧ (∀ (s : String) (q : ℚ), sentinelVal (some (.str s)) = false →
        jsParseFloat (jsTrim (stripDollarComma s)) = some q →
        normalizeNumber (some (.str s)) = q) := by
  refine ⟨?_, by decide, ?_, ?_, ?_⟩
  · have h : normalizeNumber (some (.str "$1,234.50")) = assembleFloat (false, 123450, 2, 0) := rfl
    rw [h]; norm_num [assembleFloat]
  · intro value h
    unfold normalizeNumber
    rw [if_pos h]
  · intro s hparse
    by_cases hs : sentinelVal (some (.str s)) = true
    · unfold normalizeNumber
      rw [if_pos hs]
    · unfold normalizeNumber
      rw [if_neg hs]
      show (match jsParseFloat (jsTrim (stripDollarComma s)) with
        | none => 0 | some q => q : ℚ) = 0
      rw [hparse]
  · intro s q hs hparse
    unfold normalizeNumber
    rw [if_neg (by simp [hs])]
    show (match jsParseFloat (jsTrim (stripDollarComma s)) with
      | none => 0 | some r => r : ℚ) = q
    rw [hparse]

/-- C4, witness for `normalizeNumber_spec`: concrete instances of the
sentinel, unparsable and parse-success clauses. -/
theorem normalizeNumber_spec_witness :
    normalizeNumber none = 0
    ∧ normalizeNumber (some (.str "hello")) = 0
    ∧ normalizeNumber (some (.str "7")) = 7 := by
  refine ⟨normalizeNumber_spec.2.2.1 none (by decide),
    normalizeNumber_spec.2.2.2.1 "hello" (by decide), ?_⟩
  have hraw : jsParseFloat (jsTrim (stripDollarComma "7")) = some (assembleFloat (false, 7, 0, 0)) := by
    rw [jsParseFloat, show jsParseFloatRaw (jsTrim (stripDollarComma "7"))
      = some (false, 7, 0, 0) from by decide]
    rfl
  have h := normalizeNumber_spec.2.2.2.2 "7" (assembleFloat (false, 7, 0, 0))
    (by decide) hraw
  rw [h]; norm_num [assembleFloat]

/-! ### C9 — the date coercer -/

/-- C9. The date coercer maps every sentinel input (falsy, `-`, `N/A`,
`n/a`) to the sentinel `-`; every input that parses as a date to its
`YYYY-MM-DD` form; and every unparsable non-sentinel input to itself,
never to the sentinel. -/
theorem formatDate_spec :
    (∀ value : Option JsVal, sentinelVal value = true → formatDate value = .str "-")
    ∧ (∀ (s : String) (d : ℕ), sentinelVal (some (.str s)) = false →
        parseDateISO s = some d → formatDate (some (.str s)) = .str (isoFormat d))
    ∧ (∀ s : String, sentinelVal (some (.str s)) = false →
        parseDateISO s = none → formatDate (some (.str s)) = .str s)
    ∧ formatDate (some (.str "2020-01-01")) = .str "2020-01-01"
    ∧ formatDate (some (.str "13/45/2020")) = .str "13/45/2020"
    ∧ formatDate (some (.str "")) = .str "-"
    ∧ formatDate (some (.str "-")) = .str "-"
    ∧ formatDate (some (.str "N/A")) = .str "-"
    ∧ formatDate (some (.str "n/a")) = .str "-"
    ∧ formatDate none = .str "-" := by
  refine ⟨?_, ?_, ?_, by decide, by decide, by decide, by decide, by decide,
    by decide, by decide⟩
  · intro value h
    unfold formatDate
    rw [if_pos h]
  · intro s d hs hparse
    unfold formatDate
    rw [if_neg (by simp [hs])]
    show (match parseDateISO s with
      | none => JsVal.str s | some d => .str (isoFormat d)) = .str (isoFormat d)
    rw [hparse]
  · intro s hs hparse
    unfold formatDate
    rw [if_neg (by simp [hs])]
    show (match parseDateISO s with
      | none => JsVal.str s | some d => .str (isoFormat d)) = .str s
    rw [hparse]

/-- C9, witness for `formatDate_spec`: concrete instances of the three
quantified clauses. -/
theorem formatDate_spec_witness :
    formatDate (some (.str "2020-06-15")) = .str (isoFormat 20200615)
    ∧ formatDate (some (.str "hello")) = .str "hello"
    ∧ formatDate (some (.num 0)) = .str "-" :=
  ⟨formatDate_spec.2.1 "2020-06-15" 20200615 (by decide) (by decide),
    formatDate_spec.2.2.1 "hello" (by decide) (by decide),
    formatDate_spec.1 (some (.num 0)) (by decide)⟩

/-! ### C6 — strict support scheme -/

lemma strictNormalizeSupport_some (u : JsVal) (h1 : jsFalsy (some u) = false) :
    strictNormalizeSupport (some u) =
      (if (jsTrim (jsToString u) == "-" || jsTrim (jsToString u) == "."
          || jsTrim (jsToString u) == "?" || jsTrim (jsToString u) == "0"
          || jsTrim (jsToString u) == "") = true then "Expired"
       else if (jsToUpper (jsTrim (jsToString u)) == "ACTIVE"
          || jsToUpper (jsTrim (jsToString u)) == "COVERED") = true then "Active"
       else "Expired") := by
  unfold strictNormalizeSupport
  rw [if_neg (by simp [h1])]

/-- C6. The strict scheme is fail-closed: every input maps to `Active` or
`Expired` (never an unknown sentinel); the result is `Active` exactly when
the input is present and its trimmed uppercased string form is `ACTIVE` or
`COVERED`; and the sentinel/placeholder inputs `''`, `-`, `.`, `?`, `0`,
absent, as well as the ambiguous `Unknown`, all map to `Expired`. -/
theorem strictNormalizeSupport_spec :
    (∀ value : Option JsVal,
      strictNormalizeSupport value = "Active" ∨ strictNormalizeSupport value = "Expired")
    ∧ (∀ value : Option JsVal,
        strictNormalizeSupport value = "Active" ↔
          ∃ u, value = some u ∧
            (jsToUpper (jsTrim (jsToString u)) = "ACTIVE"
              ∨ jsToUpper (jsTrim (jsToString u)) = "COVERED"))
    ∧ strictNormalizeSupport none = "Expired"
    ∧ strictNormalizeSupport (some (.str "")) = "Expired"
    ∧ strictNormalizeSupport (some (.str "-")) = "Expired"
    ∧ strictNormalizeSupport (some (.str ".")) = "Expired"
    ∧ strictNormalizeSupport (some (.str "?")) = "Expired"
    ∧ strictNormalizeSupport (some (.str "0")) = "Expired"
    ∧ strictNormalizeSupport (some (.str "Unknown")) = "Expired"
    ∧ strictNormalizeSupport (some (.str "ACTIVE")) = "Active"
    ∧ strictNormalizeSupport (some (.str "Covered")) = "Active" := by
  refine ⟨?_, ?_, by decide, by decide, by decide, by decide, by decide, by decide,
    by decide, by decide, by decide⟩
  · intro value
    rcases value with _ | u
    · right; rfl
    · by_cases h1 : jsFalsy (some u) = true
      · right
        unfold strictNormalizeSupport
        rw [if_pos h1]
      · rw [strictNormalizeSupport_some u (by simpa using h1)]
        split
        · right; rfl
        · split
          · left; rfl
          · right; rfl
  · intro value
    constructor
    · intro h
      rcases value with _ | u
      · exact absurd h (by decide)
      · refine ⟨u, rfl, ?_⟩
        by_cases h1 : jsFalsy (some u) = true
        · unfold strictNormalizeSupport at h
          rw [if_pos h1] at h
          exact absurd h (by decide)
        · rw [strictNormalizeSupport_some u (by simpa using h1)] at h
          by_cases h2 : (jsTrim (jsToString u) == "-" || jsTrim (jsToString u) == "."
              || jsTrim (jsToString u) == "?" || jsTrim (jsToString u) == "0"
              || jsTrim (jsToString u) == "") = true
          · rw [if_pos h2] at h
            exact absurd h (by decide)
          · rw [if_neg h2] at h
            by_cases h3 : (jsToUpper (jsTrim (jsToString u)) == "ACTIVE"
                || jsToUpper (jsTrim (jsToString u)) == "COVERED") = true
            · simpa using h3
            · rw [if_neg h3] at h
              exact absurd h (by decide)
    · rintro ⟨u, rfl, hupper⟩
      by_cases h1 : jsFalsy (some u) = true
      · exfalso
        rcases u with s | q | _
        · have hs : s = "" := by simpa [jsFalsy] using h1
          subst hs
          rcases hupper with h | h <;> exact absurd h (by decide)
        · have hq : q = 0 := by simpa [jsFalsy] using h1
          subst hq
          rcases hupper with h | h <;> exact absurd h (by decide)
        · rcases hupper with h | h <;> exact absurd h (by decide)
      · rw [strictNormalizeSupport_some u (by simpa using h1)]
        have h2 : (jsTrim (jsToString u) == "-" || jsTrim (jsToString u) == "."
            || jsTrim (jsToString u) == "?" || jsTrim (jsToString u) == "0"
            || jsTrim (jsToString u) == "") = false := by
          simp only [Bool.or_eq_false_iff, beq_eq_false_iff_ne, ne_eq]
          refine ⟨⟨⟨⟨?_, ?_⟩, ?_⟩, ?_⟩, ?_⟩ <;>
            · intro heq
              rw [heq] at hupper
              rcases hupper with h | h <;> exact absurd h (by decide)
        rw [if_neg (by simp [h2])]
        rw [if_pos (by rcases hupper with h | h <;> simp [h])]

/-! ### C2 — completeness percentages -/

/-- C2, counterexample. For the empty record set the completeness
computation divides zero by zero with no guard: the percentage for `mfg`
is `NaN` (modelled `none`), not `0` as the claim states. -/
theorem fieldCompleteness_empty_is_nan :
    fieldCompletenessValue [] "mfg" = none
    ∧ fieldCompletenessValue [] "mfg" ≠ some 0
    ∧ ("mfg", fieldCompletenessValue [] "mfg") ∈ fieldCompleteness [] := by
  refine ⟨by decide, by decide, by decide⟩

/-- C2, amended. For every nonempty record set, every value in
`fieldCompleteness` is an integer in `[0, 100]`; for the empty record set
the unguarded division `filled / normalizedData.length` yields `NaN`
rather than `0` (see the counterexample). -/
theorem fieldCompleteness_bounds (records : List Record) (field : String)
    (v : Option ℤ) (hne : records ≠ [])
    (hmem : (field, v) ∈ fieldCompleteness records) :
    ∃ k : ℤ, v = some k ∧ 0 ≤ k ∧ k ≤ 100 := by
  unfold fieldCompleteness at hmem
  obtain ⟨f, hf, hpair⟩ := List.mem_map.mp hmem
  rw [Prod.mk.injEq] at hpair
  obtain ⟨rfl, rfl⟩ := hpair
  have hn : 0 < records.length := List.length_pos.mpr hne
  simp only [fieldCompletenessValue]
  rw [if_neg (by omega)]
  set filled := (records.filter (fun item => fieldFilled item f)).length with hfil
  refine ⟨jsRound ((filled : ℚ) / (records.length : ℚ) * 100), rfl, ?_, ?_⟩
  · unfold jsRound
    rw [Int.le_floor]
    have h0 : (0 : ℚ) ≤ (filled : ℚ) / (records.length : ℚ) * 100 := by positivity
    push_cast
    linarith
  · have hle : filled ≤ records.length := List.length_filter_le _ _
    have hq : (filled : ℚ) / (records.length : ℚ) * 100 ≤ 100 := by
      have hnq : (0 : ℚ) < (records.length : ℚ) := by exact_mod_cast hn
      have : (filled : ℚ) / (records.length : ℚ) ≤ 1 := by
        rw [div_le_one hnq]
        exact_mod_cast hle
      linarith
    unfold jsRound
    have : ⌊(filled : ℚ) / (records.length : ℚ) * 100 + 1 / 2⌋ < 101 := by
      rw [Int.floor_lt]
      push_cast
      linarith
    omega

/-- C2, witness for `fieldCompleteness_bounds` at a one-record dataset. -/
theorem fieldCompleteness_bounds_witness :
    ([({} : Record)] ≠ []) ∧ ∃ k : ℤ,
      fieldCompletenessValue [({} : Record)] "mfg" = some k ∧ 0 ≤ k ∧ k ≤ 100 := by
  have hm : ("mfg", fieldCompletenessValue [({} : Record)] "mfg")
      ∈ fieldCompleteness [({} : Record)] := by
    unfold fieldCompleteness
    exact List.mem_map_of_mem _ (by decide)
  exact ⟨by simp, fieldCompleteness_bounds [{}] "mfg" _ (by simp) hm⟩

/-! ### C8 — breakdown conservation -/

lemma sumCount_bumpGroup (m : List (String × GroupStats)) (g : String) (item : Record) :
    ((bumpGroup m g item).map (fun p => p.2.count)).sum
      = ((m.map (fun p => p.2.count)).sum) + 1 := by
  induction m with
  | nil => simp [bumpGroup, updateStats]
  | cons hd t ih =>
    obtain ⟨k, st⟩ := hd
    by_cases hk : k = g
    · simp [bumpGroup, hk, updateStats]
      omega
    · simp [bumpGroup, hk, ih]
      omega

lemma sumQty_bumpGroup (m : List (String × GroupStats)) (g : String) (item : Record) :
    ((bumpGroup m g item).map (fun p => p.2.quantity)).sum
      = ((m.map (fun p => p.2.quantity)).sum) + qtyInt item := by
  induction m with
  | nil => simp [bumpGroup, updateStats]
  | cons hd t ih =>
    obtain ⟨k, st⟩ := hd
    by_cases hk : k = g
    · simp [bumpGroup, hk, updateStats]
      ring
    · simp [bumpGroup, hk, ih]
      ring

lemma breakdownBy_foldl_count (key : Record → String) (records : List Record) :
    ∀ m : List (String × GroupStats),
      ((records.foldl (fun acc item => bumpGroup acc (key item) item) m).map
        (fun p => p.2.count)).sum = ((m.map (fun p => p.2.count)).sum) + records.length := by
  induction records with
  | nil => intro m; simp
  | cons hd t ih =>
    intro m
    simp only [List.foldl_cons]
    rw [ih (bumpGroup m (key hd) hd), sumCount_bumpGroup]
    simp only [List.length_cons]
    omega

lemma breakdownBy_foldl_qty (key : Record → String) (records : List Record) :
    ∀ m : List (String × GroupStats),
      ((records.foldl (fun acc item => bumpGroup acc (key item) item) m).map
        (fun p => p.2.quantity)).sum
        = ((m.map (fun p => p.2.quantity)).sum) + (records.map qtyInt).sum := by
  induction records with
  | nil => intro m; simp
  | cons hd t ih =>
    intro m
    simp only [List.foldl_cons]
    rw [ih (bumpGroup m (key hd) hd), sumQty_bumpGroup]
    simp only [List.map_cons, List.sum_cons]
    ring

lemma totalQuantity_foldl (records : List Record) : ∀ a : ℤ,
    records.foldl (fun sum item => sum + qtyInt item) a = a + (records.map qtyInt).sum := by
  induction records with
  | nil => intro a; simp
  | cons hd t ih =>
    intro a
    simp only [List.foldl_cons, List.map_cons, List.sum_cons, ih]
    ring

/-- C8. Breakdown conservation: in both the manufacturer and the category
breakdowns, the per-group `count` values sum to the total record count and
the per-group `quantity` values sum to the global total quantity — every
record lands in exactly one group. -/
theorem breakdown_conservation (records : List Record) :
    ((manufacturerBreakdown records).map (fun p => p.2.count)).sum = records.length
    ∧ ((manufacturerBreakdown records).map (fun p => p.2.quantity)).sum
        = totalQuantity records
    ∧ ((categoryBreakdown records).map (fun p => p.2.count)).sum = records.length
    ∧ ((categoryBreakdown records).map (fun p => p.2.quantity)).sum
        = totalQuantity records := by
  have hq : totalQuantity records = (records.map qtyInt).sum := by
    unfold totalQuantity
    rw [totalQuantity_foldl]
    ring
  refine ⟨?_, ?_, ?_, ?_⟩
  · unfold manufacturerBreakdown breakdownBy
    rw [breakdownBy_foldl_count mfgKey records []]
    simp
  · unfold manufacturerBreakdown breakdownBy
    rw [breakdownBy_foldl_qty mfgKey records [], hq]
    simp
  · unfold categoryBreakdown breakdownBy
    rw [breakdownBy_foldl_count catKey records []]
    simp
  · unfold categoryBreakdown breakdownBy
    rw [breakdownBy_foldl_qty catKey records [], hq]
    simp

/-! ### C7 — lifecycle expiry counting -/

lemma lifeStep_foldl (now : ℕ) (l : List Record) : ∀ a : LifeStats,
    ((l.foldl (lifeStep now) a).endOfSale
        = a.endOfSale + l.countP (fun item => dateExpiredCheck item.end_of_sale now))
    ∧ ((l.foldl (lifeStep now) a).endOfSWVuln
        = a.endOfSWVuln + l.countP (fun item => dateExpiredCheck item.vuln now))
    ∧ ((l.foldl (lifeStep now) a).lastDaySupport
        = a.lastDaySupport
          + l.countP (fun item => dateExpiredCheck item.last_day_support now)) := by
  induction l with
  | nil => intro a; simp
  | cons hd t ih =>
    intro a
    simp only [List.foldl_cons, List.countP_cons]
    obtain ⟨h1, h2, h3⟩ := ih (lifeStep now a hd)
    refine ⟨?_, ?_, ?_⟩
    · rw [h1]
      dsimp only [lifeStep]
      split <;> omega
    · rw [h2]
      dsimp only [lifeStep]
      split <;> omega
    · rw [h3]
      dsimp only [lifeStep]
      split <;> omega

/-- C7. In `lifecycleByCategory`, each per-category expiry count is
exactly the number of records of that category whose date field passes
the expiry test; the test holds precisely when the field is present, not
the sentinel `-`, parses as a calendar date, and the date is on or
before `now` (unparsable dates never count); and in the spec's scenario —
two Router records dated `2020-01-01` and `2099-01-01` against
`now = 2024-01-01` — the end-of-sale count is `1`. -/
theorem lifecycle_expiry_counts :
    (∀ (records : List Record) (now : ℕ) (cat : String) (stats : LifeStats),
      (cat, stats) ∈ lifecycleByCategory records now →
        stats.endOfSale = (records.filter (fun item => catKey item == cat)).countP
            (fun item => dateExpiredCheck item.end_of_sale now)
        ∧ stats.endOfSWVuln = (records.filter (fun item => catKey item == cat)).countP
            (fun item => dateExpiredCheck item.vuln now)
        ∧ stats.lastDaySupport = (records.filter (fun item => catKey item == cat)).countP
            (fun item => dateExpiredCheck item.last_day_support now)
        ∧ stats.total = (records.filter (fun item => catKey item == cat)).length)
    ∧ (∀ (field : Option String) (now : ℕ),
        dateExpiredCheck field now = true ↔
          ∃ s, field = some s ∧ s ≠ "" ∧ s ≠ "-"
            ∧ ∃ d, parseDateISO s = some d ∧ d ≤ now)
    ∧ (lifecycleByCategory
        [{ category := some "Router", end_of_sale := some "2020-01-01" },
         { category := some "Router", end_of_sale := some "2099-01-01" }] 20240101).map
          (fun p => (p.1, p.2.endOfSale)) = [("Router", 1)] := by
  refine ⟨?_, ?_, by decide⟩
  · intro records now cat stats hmem
    unfold lifecycleByCategory at hmem
    obtain ⟨p, hp, hpair⟩ := List.mem_map.mp hmem
    simp only [Prod.mk.injEq] at hpair
    obtain ⟨h1, h2⟩ := hpair
    subst h1
    subst h2
    obtain ⟨he, hv, hl⟩ := lifeStep_foldl now
      (records.filter (fun item => catKey item == p.1)) ({} : LifeStats)
    refine ⟨?_, ?_, ?_, rfl⟩ <;> simp [he, hv, hl]
  · intro field now
    rcases field with _ | s
    · constructor
      · intro h
        simp [dateExpiredCheck] at h
      · rintro ⟨s, hs, _⟩
        exact absurd hs (by simp)
    · constructor
      · intro h
        simp only [dateExpiredCheck] at h
        by_cases h1 : (s = "" || s = "-") = true
        · rw [if_pos h1] at h
          exact absurd h (by decide)
        · rw [if_neg h1] at h
          have hne1 : s ≠ "" := by
            intro he
            subst he
            exact h1 (by decide)
          have hne2 : s ≠ "-" := by
            intro he
            subst he
            exact h1 (by decide)
          cases hparse : parseDateISO s with
          | none =>
            rw [hparse] at h
            simp at h
          | some d =>
            rw [hparse] at h
            refine ⟨s, rfl, hne1, hne2, d, hparse, ?_⟩
            simpa using h
      · rintro ⟨t, ht, hne1, hne2, d, hd, hle⟩
        obtain rfl := Option.some.inj ht.symm
        simp only [dateExpiredCheck]
        rw [if_neg (by simp [hne1, hne2]), hd]
        simpa using hle

/-- C7, witness for `lifecycle_expiry_counts` at the Router scenario. -/
theorem lifecycle_expiry_counts_witness :
    ({ totalQty := 0, endOfSale := 1, endOfSWVuln := 0, lastDaySupport := 0,
        total := 2 } : LifeStats).endOfSale
      = (([{ category := some "Router", end_of_sale := some "2020-01-01" },
          ({ category := some "Router", end_of_sale := some "2099-01-01" } : Record)].filter
            (fun item => catKey item == "Router")).countP
          (fun item => dateExpiredCheck item.end_of_sale 20240101)) :=
  (lifecycle_expiry_counts.1 _ 20240101 "Router" _ (by decide)).1

/-! ### C5 — pagination of results -/

/-- C5, counterexample. A negative offset is not clamped to `[0, len]`:
JS slice interprets it relative to the end of the array, so for the
two-record store and `offset = -1`, `limit = 2` the handler returns `[]`
while the clamped slice the claim describes would return the whole
list. -/
theorem getResults_negative_offset_not_clamped :
    getResultsRecords [10, 20] (some 2) (some (-1)) = ([] : List ℕ)
    ∧ specClampedRecords [10, 20] (some 2) (some (-1)) = [10, 20]
    ∧ getResultsRecords [10, 20] (some 2) (some (-1))
        ≠ specClampedRecords [10, 20] (some 2) (some (-1)) := by
  refine ⟨by decide, by decide, by decide⟩

/-- C5, amended. The results operation never fails: it returns
`records.slice(offset, offset + limit)` under JavaScript slice semantics.
For a nonnegative offset and positive limit this is the drop/take slice
effectively clamped to the record range, and absent (or unparsable)
offset/limit default to `0` and `len(records)`; but a negative offset is
interpreted relative to the end of the sequence (JS slice), not clamped
to `0`, and a limit of `0` falls back to `len(records)`. -/
theorem getResults_slice_spec :
    (∀ (α : Type) (records : List α) (off lim : ℤ), 0 ≤ off → 1 ≤ lim →
      getResultsRecords records (some lim) (some off)
        = (records.drop off.toNat).take lim.toNat)
    ∧ (∀ (α : Type) (records : List α),
        getResultsRecords records none none = records) := by
  constructor
  · intro α records off lim hoff hlim
    simp only [getResultsRecords]
    rw [if_neg (by omega)]
    simp only [jsSlice, jsSliceIndex]
    rw [if_neg (by omega), if_neg (by omega)]
    have hdrop : records.drop (min off.toNat records.length) = records.drop off.toNat := by
      rcases le_or_lt off.toNat records.length with hc | hc
      · rw [min_eq_left hc]
      · rw [min_eq_right (le_of_lt hc), List.drop_length,
          List.drop_eq_nil_of_le (le_of_lt hc)]
    rw [hdrop, List.take_eq_take, List.length_drop]
    omega
  · intro α records
    simp only [getResultsRecords, jsSlice, jsSliceIndex]
    rw [if_neg (by omega), if_neg (by omega)]
    simp

/-- C5, witness for `getResults_slice_spec`: a concrete in-range page and
the default (no-parameter) call. -/
theorem getResults_slice_spec_witness :
    getResultsRecords [1, 2, 3] (some 2) (some 1) = [2, 3]
    ∧ getResultsRecords [1, 2, 3] (none : Option ℤ) none = [1, 2, 3] := by
  constructor
  · have h := getResults_slice_spec.1 ℕ [1, 2, 3] 1 2 (by norm_num) (by norm_num)
    rw [h]
    rfl
  · exact getResults_slice_spec.2 ℕ [1, 2, 3]

/-! ### C10 — dataset normalizer fault tolerance -/

/-- C10. `processData` is length- and order-preserving: the output at
index `i` is determined by the input row at index `i`; a row whose
processing throws (a non-object row) is emitted unchanged; and a
normalized record whose `id` is falsy receives `id = index + 1`. -/
theorem processData_spec (data : List JsRow) :
    (processData data).length = data.length
    ∧ (∀ (i : ℕ) (h : i < data.length) (h2 : i < (processData data).length),
        (data[i] = JsRow.nonObj → (processData data)[i] = data[i])
        ∧ (∀ row, data[i] = JsRow.obj row →
            (processData data)[i] =
              (if jsFalsy (getField (normalizeRow row) "id") = true then
                JsRow.obj (setField (normalizeRow row) "id" (JsVal.num ((i : ℚ) + 1)))
               else JsRow.obj (normalizeRow row)))
        ∧ (∀ row, data[i] = JsRow.obj row →
            jsFalsy (getField (normalizeRow row) "id") = true →
            ∃ rec, (processData data)[i] = JsRow.obj rec
              ∧ getField rec "id" = some (JsVal.num ((i : ℚ) + 1)))) := by
  refine ⟨by simp [processData], ?_⟩
  intro i h h2
  have hget : (processData data)[i] =
      (match data[i] with
        | JsRow.obj row =>
          if jsFalsy (getField (normalizeRow row) "id") = true then
            JsRow.obj (setField (normalizeRow row) "id" (JsVal.num ((i : ℚ) + 1)))
          else JsRow.obj (normalizeRow row)
        | JsRow.nonObj => data[i]) := by
    unfold processData
    rw [List.getElem_map, List.getElem_enum]
  refine ⟨?_, ?_, ?_⟩
  · intro hrow
    rw [hget, hrow]
  · intro row hrow
    rw [hget, hrow]
  · intro row hrow hid
    rw [hget, hrow]
    refine ⟨setField (normalizeRow row) "id" (JsVal.num ((i : ℚ) + 1)), ?_, ?_⟩
    · simp [hid]
    · exact getField_setField_self _ _ _

/-- C10, witness for `processData_spec`: a two-row batch with one
well-formed row carrying its own `id` and one throwing row. -/
theorem processData_spec_witness :
    (processData [JsRow.obj [("id", JsVal.num 7)], JsRow.nonObj]).length = 2
    ∧ (processData [JsRow.obj [("id", JsVal.num 7)], JsRow.nonObj]).get
        ⟨1, by decide⟩ = JsRow.nonObj
    ∧ (processData [JsRow.obj [("id", JsVal.num 7)], JsRow.nonObj]).get
        ⟨0, by decide⟩ =
        (if jsFalsy (getField (normalizeRow [("id", JsVal.num 7)]) "id") = true then
          JsRow.obj (setField (normalizeRow [("id", JsVal.num 7)]) "id"
            (JsVal.num (((0 : ℕ) : ℚ) + 1)))
         else JsRow.obj (normalizeRow [("id", JsVal.num 7)])) := by
  refine ⟨(processData_spec _).1.trans rfl, ?_, ?_⟩
  · exact (((processData_spec _).2 1 (by decide) (by decide)).1 (by decide)).trans
      (by decide)
  · exact ((processData_spec _).2 0 (by decide) (by decide)).2.1
      [("id", JsVal.num 7)] (by decide)

example : strictNormalizeSupport (some (.str "Unknown")) = "Expired" := by decide
example : strictNormalizeSupport (some (.str "active")) = "Active" := by decide
example : strictNormalizeSupport (some (.str " COVERED ")) = "Active" := by decide
example : strictNormalizeSupport (some (.str "-")) = "Expired" := by decide
example : resolveHeader "Vendor" = "mfg" := by decide
example : resolveHeader "Serial#" = "serial" := by decide
example : getField (normalizeRow [("Serial#", .str "ABC")]) "mfg" = none := by decide
example : getField (normalizeRow [("Coverage", .str "Covered")]) "support_coverage"
    = some (.str "Active") := by decide
example : getResultsRecords [10, 20] (some 2) (some (-1)) = ([] : List ℕ) := by decide
example : specClampedRecords [10, 20] (some 2) (some (-1)) = [10, 20] := by decide
example : (lifecycleByCategory
    [{ category := some "Router", end_of_sale := some "2020-01-01" },
     { category := some "Router", end_of_sale := some "2099-01-01" }] 20240101).map
      (fun p => (p.1, p.2.endOfSale)) = [("Router", 1)] := by decide

example : normalizeSupport (some (.str "Not Covered")) = .str "Active" := by decide
example : normalizeSupport (some (.str "No Coverage")) = .str "Expired" := by decide
example : normalizeSupport (some (.str "Covered")) = .str "Active" := by decide
example : normalizeSupport (some (.str "Expired - No Renewal")) = .str "Expired" := by decide
example : normalizeSupport (some (.str "Pending Review")) = .str "Pending Review" := by decide
example : normalizeNumber (some (.str "$1,234.50")) = (2469 : ℚ) / 2 := by
  have h : normalizeNumber (some (.str "$1,234.50")) = assembleFloat (false, 123450, 2, 0) := rfl
  rw [h]; norm_num [assembleFloat]
example : normalizeNumber (some (.str "-")) = 0 := by decide
example : normalizeNumber (some (.str "-5")) = -5 := by
  have h : normalizeNumber (some (.str "-5")) = assembleFloat (true, 5, 0, 0) := rfl
  rw [h]; norm_num [assembleFloat]
example : formatDate (some (.str "2020-01-01")) = .str "2020-01-01" := by decide
example : formatDate (some (.str "-")) = .str "-" := by decide
example : formatDate (some (.str "13/45/2020")) = .str "13/45/2020" := by decide
